import Mathlib

/-!
Shallow embedding of the Shiftly-nest backend core, for checking its
specification claims.

The embedded pieces are:
* the generic read service (`findOneByID`, `findAll`) of
  `src/shared/abstracts/base-abstract.service.ts`;
* the generic CRUD service (`createEntity`, `updateEntity`, `deleteEntity`,
  `assertAffected`) of `src/shared/abstracts/crud/crud-abstract.service.ts`;
* the `User` feature (`registerUser`, `isThisEmailAlreadyInDb`) of
  `src/features/user/user.service.ts` and the `User` entity declaration;
* the validated config service (`ZodService.get`) of
  `src/core/zod/zod.service.ts` and its `EnvVariablesError`;
* the database exception filter of
  `src/exceptions/database/database.filter.exception.ts`.

A database table is a list of rows; a row carries the numeric generated id,
the creation timestamp (`@CreateDateColumn`), the optional soft-delete
timestamp (`@DeleteDateColumn`) and the entity data columns as an
association list from column name to string value.  Statements of a write
operation run against a working copy of the table; `transaction` publishes
the working copy on success and discards it (rollback) when the body ends
in an error, mirroring `EntityManager.transaction`.  The ambient clock
(`new Date()`) is passed in as an explicit `now : Nat` parameter.
-/

namespace Shiftly

/-- Data columns of a row: association list from column name to value.
Column values are modelled as strings. -/
abbrev Attrs := List (String × String)

/-- A persisted table row: generated numeric primary key, creation
timestamp, optional soft-delete timestamp, and the entity data columns. -/
structure Row where
  id : Nat
  createdAt : Nat
  deletedAt : Option Nat
  attrs : Attrs
deriving DecidableEq, Repr

/-- A database table. -/
abbrev Table := List Row

/-- Value of a data column: the first binding of the name wins. -/
def getField (attrs : Attrs) (k : String) : Option String :=
  match attrs with
  | [] => none
  | p :: ps => if p.1 = k then some p.2 else getField ps k

/-- Whether a data column is bound. -/
def hasField (attrs : Attrs) (k : String) : Bool :=
  match attrs with
  | [] => false
  | p :: ps => p.1 = k || hasField ps k

/-- A thrown NestJS `HttpException`: HTTP status code plus message. -/
structure HttpException where
  status : Nat
  message : String
deriving DecidableEq, Repr

/-- `HttpStatus.NOT_FOUND`. -/
def statusNotFound : Nat := 404

/-- `HttpStatus.CONFLICT`. -/
def statusConflict : Nat := 409

/-- `HttpStatus.BAD_REQUEST`. -/
def statusBadRequest : Nat := 400

/-- `HttpStatus.INTERNAL_SERVER_ERROR`. -/
def statusInternalServerError : Nat := 500

/-! ## Read service (`base-abstract.service.ts`) -/

/-- TypeORM lock modes used by the read service. -/
inductive LockMode
  | pessimisticRead
deriving DecidableEq, Repr

/-- The options object handed to `repo.findOne` by `findOneByID`:
an id equality where-clause, an optional lock and the `withDeleted` flag. -/
structure FindOneQuery where
  whereId : Nat
  lock : Option LockMode
  withDeleted : Bool
deriving DecidableEq, Repr

/-- `repo.findOne` for an id equality where-clause: the first row whose id
matches; soft-deleted rows are excluded unless `withDeleted` is set. -/
def runFindOne (table : Table) (q : FindOneQuery) : Option Row :=
  table.find? (fun r => r.id == q.whereId && (q.withDeleted || r.deletedAt.isNone))

/-- The query options built by `findOneByID(id, manager?)`: lock
`pessimistic_read` exactly when a transaction manager was supplied,
`withDeleted: false` always. -/
def findOneByIDQuery (id : Nat) (hasManager : Bool) : FindOneQuery :=
  { whereId := id
    lock := if hasManager then some LockMode.pessimisticRead else none
    withDeleted := false }

/-- `findOneByID(id, manager?)`: runs `findOne` with the options built by
`findOneByIDQuery`.  The `hasManager` flag records whether an
`EntityManager` was supplied; in this single-table model it affects only
the lock put in the query options, not the rows seen. -/
def findOneByID (table : Table) (id : Nat) (hasManager : Bool) : Option Row :=
  runFindOne table (findOneByIDQuery id hasManager)

/-! ## findAll (pagination) -/

/-- A value in a TypeORM where-clause: a concrete string or SQL `null`. -/
inductive WhereVal
  | str (v : String)
  | null
deriving DecidableEq, Repr

/-- A where-clause: association list from property name to value. -/
abbrev WhereClause := List (String × WhereVal)

/-- The where object built by `findAll`: the JS spread
`{ ...(filter ?? \x7b\x7d), deletedAt: null }` — every key of the caller
filter except a `deletedAt` binding (which the spread would override),
followed by `deletedAt` bound to `null`. -/
def findAllWhere (filter : WhereClause) : WhereClause :=
  (filter.filter (fun p => p.1 ≠ "deletedAt")) ++ [("deletedAt", WhereVal.null)]

/-- Whether one where-clause pair matches a row, for the generic entity
whose soft-delete property is genuinely called `deletedAt` (as
`base-abstract.service.ts` assumes of its entities): a `deletedAt`
condition constrains the soft-delete timestamp, any other key is an
equality condition on the data column of that name. -/
def matchesPair (r : Row) (k : String) (v : WhereVal) : Bool :=
  if k = "deletedAt" then
    match v with
    | WhereVal.null => r.deletedAt.isNone
    | WhereVal.str _ => false
  else
    match v with
    | WhereVal.null => (getField r.attrs k).isNone
    | WhereVal.str s => getField r.attrs k == some s

/-- A row matches a where-clause when it matches every pair. -/
def rowMatches (r : Row) (w : WhereClause) : Bool :=
  w.all (fun p => matchesPair r p.1 p.2)

/-- Insertion into a list kept sorted by creation timestamp descending. -/
def insertByCreatedAtDesc (r : Row) : List Row → List Row
  | [] => [r]
  | x :: xs =>
    if x.createdAt ≤ r.createdAt then r :: x :: xs
    else x :: insertByCreatedAtDesc r xs

/-- Sort by creation timestamp descending (`order: { createdAt: 'DESC' }`). -/
def sortByCreatedAtDesc (l : List Row) : List Row :=
  l.foldr insertByCreatedAtDesc []

/-- `repo.findAndCount`: rows matching the where-clause (soft-deleted rows
excluded unless `withDeleted`), ordered by creation timestamp descending,
with `skip`/`take` applied to the data page; the returned count is the
total number of matching rows, not the page length. -/
def findAndCount (table : Table) (w : WhereClause) (skip' take' : Nat)
    (withDeleted : Bool) : List Row × Nat :=
  let matched := table.filter
    (fun r => (withDeleted || r.deletedAt.isNone) && rowMatches r w)
  (((sortByCreatedAtDesc matched).drop skip').take take', matched.length)

/-- `IPagination<T>`: 1-based page, page size, optional equality filter
(an absent filter is the empty clause, matching `filter ?? \x7b\x7d`). -/
structure PaginationRequest where
  page : Nat
  limit : Nat
  filter : WhereClause
deriving DecidableEq, Repr

/-- `IResultWithPagination<T>`. -/
structure PaginationResult where
  data : List Row
  total : Nat
  page : Nat
  limit : Nat
deriving DecidableEq, Repr

/-- `findAll(pagination, manager?)`: merges the caller filter with
`deletedAt: null`, queries with `skip = (page - 1) * limit`,
`take = limit`, `order: createdAt DESC`, `withDeleted: false`, and echoes
`page` and `limit` in the result. -/
def findAll (table : Table) (p : PaginationRequest) : PaginationResult :=
  let w := findAllWhere p.filter
  let dataTotal := findAndCount table w ((p.page - 1) * p.limit) p.limit false
  { data := dataTotal.1, total := dataTotal.2, page := p.page, limit := p.limit }

/-! ## User entity metadata (`user.entity.ts`) -/

/-- The property names declared on the `User` entity
(`src/features/user/entities/user.entity.ts`): `id`, `email`, `name`,
`password`, `avatar`, `deleteAt` (the `@DeleteDateColumn`), `createdAt`. -/
def userEntityProperties : List String :=
  ["id", "email", "name", "password", "avatar", "deleteAt", "createdAt"]

/-- The `User` property carrying `@DeleteDateColumn`: it is spelled
`deleteAt`, not `deletedAt`. -/
def userSoftDeleteColumn : String := "deleteAt"

/-! ## CRUD service (`crud-abstract.service.ts`) -/

/-- Outcome of one write operation's transaction, after
`Pending → \x7bCommitted | RolledBack\x7d`.  `table` is the persistent
state after the call, `result` the value returned or error thrown. -/
inductive TxState
  | pending
  | committed
  | rolledBack
deriving DecidableEq, Repr

deriving instance DecidableEq for Except

/-- Result of a public write method: the persistent table after the call,
the transaction outcome, and the returned value or propagated error. -/
structure TxResult (A : Type) where
  table : Table
  state : TxState
  result : Except HttpException A
deriving DecidableEq, Repr

/-- `EntityManager.transaction(body)`: the body runs against a working
copy of the table; on success its working table is committed, on a thrown
error the working table is discarded (rollback restores the original
table) and the error is rethrown to the caller. -/
def transaction {A : Type} (table : Table)
    (body : Table → Table × Except HttpException A) : TxResult A :=
  match body table with
  | (t2, Except.ok a) => ⟨t2, TxState.committed, Except.ok a⟩
  | (_, Except.error e) => ⟨table, TxState.rolledBack, Except.error e⟩

/-- Fresh primary key for an insert (`@PrimaryGeneratedColumn`). -/
def nextId (table : Table) : Nat :=
  (table.map Row.id).foldr max 0 + 1

/-- `createEntityWithManager(data, manager)`: `repo.create` then
`repo.save` — appends a new row with a generated id, the current time as
creation timestamp, no soft-delete timestamp, and the supplied data. -/
def createEntityWithManager (table : Table) (now : Nat) (data : Attrs) :
    Table × Except HttpException Row :=
  let row : Row := { id := nextId table, createdAt := now, deletedAt := none, attrs := data }
  (table ++ [row], Except.ok row)

/-- `createEntity(data, manager?)`: inside the caller's transaction when a
manager is supplied (no commit or rollback owned here), otherwise inside a
new owned transaction. -/
def createEntity (table : Table) (now : Nat) (data : Attrs) (hasManager : Bool) :
    TxResult Row :=
  if hasManager then
    let br := createEntityWithManager table now data
    ⟨br.1, TxState.pending, br.2⟩
  else
    transaction table (fun t => createEntityWithManager t now data)

/-- Which kind of result `assertAffected` received: the
`result instanceof UpdateResult` test. -/
inductive WriteKind
  | update
  | delete
deriving DecidableEq, Repr

/-- The 404 error `assertAffected` throws for an update affecting no row. -/
def updateNotAffectedError (id : Nat) : HttpException :=
  { status := statusNotFound
    message := "Impossible de mettre a jour l entite (id " ++ toString id ++
      "). L entite est introuvable ou a deja ete supprimee." }

/-- The 409 error `assertAffected` throws for a delete affecting no row. -/
def deleteNotAffectedError (id : Nat) : HttpException :=
  { status := statusConflict
    message := "Impossible de supprimer l entite (id " ++ toString id ++
      "). L entite est introuvable ou en cours d utilisation (contraintes)." }

/-- `assertAffected(result, id)`: with `affected ?? 0` already normalised
to a `Nat`, throws 404 when an update affected no row and 409 when a
delete affected no row; otherwise returns. -/
def assertAffected (kind : WriteKind) (affected : Nat) (id : Nat) :
    Except HttpException Unit :=
  match kind with
  | WriteKind.update =>
    if affected = 0 then Except.error (updateNotAffectedError id) else Except.ok ()
  | WriteKind.delete =>
    if affected = 0 then Except.error (deleteNotAffectedError id) else Except.ok ()

/-- Set one data column, keeping every other binding. -/
def setField (attrs : Attrs) (k : String) (v : String) : Attrs :=
  if hasField attrs k then
    attrs.map (fun p => if p.1 = k then (k, v) else p)
  else attrs ++ [(k, v)]

/-- The column assignments of `UPDATE ... SET` for a `Partial<T>`: every
column named in the partial takes its supplied value, every other column
keeps its prior value. -/
def applyPartial (attrs : Attrs) (data : Attrs) : Attrs :=
  data.foldl (fun a p => setField a p.1 p.2) attrs

/-- `repo.update(id, data)`'s effect on the table: `UPDATE ... WHERE id`
— applies the partial to every row with the given id (soft-deleted rows
included; `update` adds no soft-delete condition). -/
def applyUpdate (table : Table) (id : Nat) (data : Attrs) : Table :=
  table.map (fun r => if r.id = id then { r with attrs := applyPartial r.attrs data } else r)

/-- The affected-row count reported by `repo.update(id, data)`:
the number of rows whose id matches. -/
def updateAffected (table : Table) (id : Nat) : Nat :=
  (table.filter (fun r => r.id == id)).length

/-- The 404 error `updateEntityWithManager` throws when the existence
check finds no entity. -/
def updateMissingEntityError (id : Nat) : HttpException :=
  { status := statusNotFound
    message := "Failed to update Entity with id " ++ toString id ++
      ". Entity was updated or was deleted" }

/-- `updateEntityWithManager(id, data, manager)`: confirms the entity
exists via `findOneByID(id, manager)` (else throws 404), runs
`repo.update(id, data)`, checks the affected-row count via
`assertAffected`, and re-reads the entity with `findOneByID(id)`. -/
def updateEntityWithManager (table : Table) (id : Nat) (data : Attrs) :
    Table × Except HttpException (Option Row) :=
  match findOneByID table id true with
  | none => (table, Except.error (updateMissingEntityError id))
  | some _ =>
    let affected := updateAffected table id
    let t2 := applyUpdate table id data
    match assertAffected WriteKind.update affected id with
    | Except.error e => (t2, Except.error e)
    | Except.ok _ => (t2, Except.ok (findOneByID t2 id false))

/-- `updateEntity(id, data, manager?)`: inside the caller's transaction
when a manager is supplied, otherwise inside a new owned transaction. -/
def updateEntity (table : Table) (id : Nat) (data : Attrs) (hasManager : Bool) :
    TxResult (Option Row) :=
  if hasManager then
    let br := updateEntityWithManager table id data
    ⟨br.1, TxState.pending, br.2⟩
  else
    transaction table (fun t => updateEntityWithManager t id data)

/-- `DeleteResponse`: the confirmation record returned by `deleteEntity`. -/
structure DeleteResponse where
  message : String
  success : Bool
  date : Nat
deriving DecidableEq, Repr

/-- The affected-row count reported by `repo.delete(id)`:
the number of rows whose id matches (soft-deleted rows included;
`delete` is a hard `DELETE ... WHERE id`). -/
def deleteAffected (table : Table) (id : Nat) : Nat :=
  (table.filter (fun r => r.id == id)).length

/-- `repo.delete(id)`'s effect on the table: removes every row with the
given id. -/
def runDelete (table : Table) (id : Nat) : Table :=
  table.filter (fun r => r.id ≠ id)

/-- The confirmation record built on a successful delete. -/
def deleteSuccessResponse (id : Nat) (now : Nat) : DeleteResponse :=
  { message := "Entity with ID " ++ toString id ++ " was successfully deleted."
    success := true
    date := now }

/-- `deleteEntityWithManager(id, manager)`: runs `repo.delete(id)`,
checks the affected-row count via `assertAffected` (409 when zero), and
returns the confirmation record. -/
def deleteEntityWithManager (table : Table) (now : Nat) (id : Nat) :
    Table × Except HttpException DeleteResponse :=
  let affected := deleteAffected table id
  let t2 := runDelete table id
  match assertAffected WriteKind.delete affected id with
  | Except.error e => (t2, Except.error e)
  | Except.ok _ => (t2, Except.ok (deleteSuccessResponse id now))

/-- `deleteEntity(id, manager?)`: inside the caller's transaction when a
manager is supplied, otherwise inside a new owned transaction. -/
def deleteEntity (table : Table) (now : Nat) (id : Nat) (hasManager : Bool) :
    TxResult DeleteResponse :=
  if hasManager then
    let br := deleteEntityWithManager table now id
    ⟨br.1, TxState.pending, br.2⟩
  else
    transaction table (fun t => deleteEntityWithManager t now id)

/-! ## Validated config service (`zod.service.ts`, `env-error.ts`) -/

/-- `EnvVariablesError`: an `Error` whose name is `EnvVariableError` and
whose message names the missing variable and the current environment. -/
structure EnvVariablesError where
  name : String
  message : String
deriving DecidableEq, Repr

/-- The `EnvVariablesError` constructor. -/
def mkEnvVariablesError (v : String) (env : String) : EnvVariablesError :=
  { name := "EnvVariableError"
    message := "Missing environment variable: " ++ v ++ " (environment: " ++ env ++ ")" }

/-- The mutable state of `ZodService`: the detected environment
(`this.env`), the per-key cache, and the underlying validated store
(`ConfigService`), modelled as an association list where an absent key is
an `undefined`/`null` lookup and `""` is the empty value. -/
structure ZodState where
  env : String
  cache : List (String × String)
  store : List (String × String)
deriving DecidableEq, Repr

/-- `ZodService.get(key)`: returns the cached value when present;
otherwise fetches the key from the validated store, throws
`EnvVariablesError(key, env)` when the fetched value is
undefined/null/empty, and otherwise caches and returns the value. -/
def zodGet (st : ZodState) (key : String) : ZodState × Except EnvVariablesError String :=
  match st.cache.lookup key with
  | some v => (st, Except.ok v)
  | none =>
    match st.store.lookup key with
    | none => (st, Except.error (mkEnvVariablesError key st.env))
    | some v =>
      if v = "" then (st, Except.error (mkEnvVariablesError key st.env))
      else ({ st with cache := (key, v) :: st.cache }, Except.ok v)

/-! ## Database exception filter (`database.filter.exception.ts`) -/

/-- The exceptions the filter is declared to catch
(`@Catch(QueryFailedError, TypeOrmError, DatabaseError)`): a TypeORM
`QueryFailedError` carrying the optional driver SQL error code (present
only when `driverError.code` is a string), or one of the two custom error
classes with their `name`, `code`, `message` and optional `details`. -/
inductive DbException
  | queryFailed (driverCode : Option String)
  | typeOrm (name code message : String) (details : Option String)
  | database (name code message : String) (details : Option String)
deriving DecidableEq, Repr

/-- The JSON body (with its HTTP status) emitted by the filter. -/
structure DbResponse where
  status : Nat
  success : Bool
  error : String
  message : String
  code : Option String
  details : Option String
deriving DecidableEq, Repr

/-- `DatabaseFilterException.catch`: classifies the exception.  Driver SQL
errors map `23505` to 409, `23503` and `23502` to 400 and everything else
(including a missing code) to 500, never echoing details; the custom
`TypeOrmError` and `DatabaseError` branches emit 500 and 400 respectively
and echo `details` as-is.  The filter consults no environment flag, so the
same body is emitted in every environment. -/
def dbFilterCatch : DbException → DbResponse
  | DbException.queryFailed code =>
    if code = some "23505" then
      ⟨409, false, "Conflict", "Duplicate entry. Unique constraint violated.", none, none⟩
    else if code = some "23503" then
      ⟨400, false, "Bad Request", "Foreign key constraint violation.", none, none⟩
    else if code = some "23502" then
      ⟨400, false, "Bad Request", "Missing required field.", none, none⟩
    else
      ⟨500, false, "Database Error", "An unknown database error occurred.", none, none⟩
  | DbException.typeOrm n c m d => ⟨500, false, n, m, some c, d⟩
  | DbException.database n c m d => ⟨400, false, n, m, some c, d⟩

/-- The body the filter emits for a request handled in the given
environment: `DatabaseFilterException.catch` reads no environment state,
so the emitted body ignores the `isProduction` flag entirely. -/
def dbFilterEmitted (_isProduction : Bool) (e : DbException) : DbResponse :=
  dbFilterCatch e

/-! ## User service (`user.service.ts`) -/

/-- `CreateUserDto`: the registration payload. -/
structure CreateUserDto where
  email : String
  name : String
  password : String
  avatar : String
deriving DecidableEq, Repr

/-- Models Zod's `z.string().trim().email()` well-formedness gate of
`EmailSchema`: after trimming the whitespace, exactly one `@` separating a
nonempty local part from a nonempty domain containing a dot.  The claims
depend only on this being the single decidable predicate gating
`isThisEmailAlreadyInDb`, not on the exact boundary of Zod's email
regular expression. -/
def isValidEmail (s : String) : Bool :=
  let cs := ((s.toList.dropWhile Char.isWhitespace).reverse.dropWhile
    Char.isWhitespace).reverse
  let lp := cs.takeWhile (fun ch => ch ≠ '@')
  let dp := (cs.dropWhile (fun ch => ch ≠ '@')).drop 1
  cs.count '@' == 1 && !lp.isEmpty && !dp.isEmpty && dp.contains '.'

/-- The 400 error thrown when `EmailSchema.safeParse` fails. -/
def invalidEmailError : HttpException :=
  { status := statusBadRequest, message := "Please provide valid email" }

/-- The 400 error thrown when the email is already registered. -/
def emailExistsError : HttpException :=
  { status := statusBadRequest, message := "Email already exists" }

/-- The 500 error thrown when the hashing result is empty. -/
def hashingFailedError : HttpException :=
  { status := statusInternalServerError, message := "Something went wrong" }

/-- The argument of `isThisEmailAlreadyInDb`: the TypeScript parameter is
`string | ValidEmail`, and `registerUser` passes the `ValidEmail` wrapper
object `\x7b email: providedEmail \x7d`, not the bare string. -/
inductive EmailArg
  | str (v : String)
  | valid (v : String)
deriving DecidableEq, Repr

/-- `EmailSchema.safeParse` on the parameter: the schema is
`z.object(\x7b email: ... \x7d)`, so it accepts the wrapper object whose
inner string is a well-formed email and rejects a bare string. -/
def emailSchemaAccepts : EmailArg → Bool
  | EmailArg.str _ => false
  | EmailArg.valid v => isValidEmail v

/-- The text the driver binds for the where-clause parameter built by the
shorthand `where: \x7b email \x7d`: a string parameter binds as itself,
while a plain object — here the `ValidEmail` wrapper — is serialized to
its JSON text, so the `email` column is compared against that text
rather than against the inner email string. -/
def boundParamText : EmailArg → String
  | EmailArg.str v => v
  | EmailArg.valid v => "\x7b\"email\":\"" ++ v ++ "\"\x7d"

/-- `isThisEmailAlreadyInDb(email)`: validates the parameter with
`EmailSchema.safeParse` (else throws 400) and then asks
`repository.exists` whether a live user row's `email` column equals the
bound parameter.  The shorthand `where: \x7b email \x7d` puts the whole
parameter into the clause, so when the wrapper object is passed the
column is compared against its serialized JSON text — never the email
itself; like every TypeORM find-family call the query excludes
soft-deleted rows. -/
def isThisEmailAlreadyInDb (table : Table) (email : EmailArg) :
    Except HttpException Bool :=
  if emailSchemaAccepts email then
    Except.ok (table.any (fun r => r.deletedAt.isNone &&
      getField r.attrs "email" == some (boundParamText email)))
  else Except.error invalidEmailError

/-- The envelope returned by a successful `registerUser` call (the
`executionTime` chronometer string and the production projection of
`data` are omitted; `data` is the persisted entity). -/
structure RegisterResponse where
  success : Bool
  message : String
  data : Row
deriving DecidableEq, Repr

/-- Result of a `registerUser` call: the table after the call, the
arguments handed to `passwordService.protectPassword` in call order, and
the returned envelope or thrown error. -/
structure RegisterResult where
  table : Table
  hashCalls : List String
  result : Except HttpException RegisterResponse
deriving DecidableEq, Repr

/-- `registerUser(customer)`: checks
`isThisEmailAlreadyInDb(\x7b email: providedEmail \x7d)` — passing the
wrapper object — and throws 400 `Email already exists` on a reported
conflict; then computes `protectPassword(providedEmail)` — the argument
is the caller's email — keeping only a truthiness check on the resulting
hash (an empty string is the falsy case); then persists via
`createEntity(\x7b...customer, password: providedPassword\x7d)`, so the
stored `password` column holds the caller-supplied plain-text password
and the computed hash appears nowhere in the persisted row.  `hashFn` is
the pluggable hashing strategy behind `protectPassword`. -/
def registerUser (table : Table) (now : Nat) (hashFn : String → String)
    (customer : CreateUserDto) : RegisterResult :=
  match isThisEmailAlreadyInDb table (EmailArg.valid customer.email) with
  | Except.error e => ⟨table, [], Except.error e⟩
  | Except.ok true => ⟨table, [], Except.error emailExistsError⟩
  | Except.ok false =>
    let securePassword := hashFn customer.email
    if securePassword = "" then
      ⟨table, [customer.email], Except.error hashingFailedError⟩
    else
      let tx := createEntity table now
        [("email", customer.email), ("name", customer.name),
         ("password", customer.password), ("avatar", customer.avatar)] false
      match tx.result with
      | Except.ok row =>
        ⟨tx.table, [customer.email],
         Except.ok ⟨true, "Greeting " ++ customer.name ++ " ", row⟩⟩
      | Except.error e => ⟨tx.table, [customer.email], Except.error e⟩

/-! ## Helper lemmas -/

theorem findOneByID_eq_find? (table : Table) (id : Nat) (b : Bool) :
    findOneByID table id b =
      table.find? (fun r => r.id == id && r.deletedAt.isNone) := by
  simp [findOneByID, runFindOne, findOneByIDQuery]

theorem transaction_ok {A : Type} (table t2 : Table) (a : A)
    (body : Table → Table × Except HttpException A)
    (h : body table = (t2, Except.ok a)) :
    transaction table body = ⟨t2, TxState.committed, Except.ok a⟩ := by
  simp [transaction, h]

theorem transaction_error {A : Type} (table : Table) (e : HttpException)
    (body : Table → Table × Except HttpException A)
    (h : (body table).2 = Except.error e) :
    transaction table body = ⟨table, TxState.rolledBack, Except.error e⟩ := by
  rcases hb : body table with ⟨t2, r⟩
  rw [hb] at h
  simp only at h
  subst h
  simp [transaction, hb]

theorem transaction_state_ne_pending {A : Type} (table : Table)
    (body : Table → Table × Except HttpException A) :
    (transaction table body).state ≠ TxState.pending := by
  rcases hb : body table with ⟨t2, r⟩
  cases r <;> simp [transaction, hb]

theorem createEntity_no_manager (table : Table) (now : Nat) (data : Attrs) :
    createEntity table now data false =
      transaction table (fun t => createEntityWithManager t now data) := by
  simp [createEntity]

theorem updateEntity_no_manager (table : Table) (id : Nat) (data : Attrs) :
    updateEntity table id data false =
      transaction table (fun t => updateEntityWithManager t id data) := by
  simp [updateEntity]

theorem deleteEntity_no_manager (table : Table) (now id : Nat) :
    deleteEntity table now id false =
      transaction table (fun t => deleteEntityWithManager t now id) := by
  simp [deleteEntity]

theorem deleteAffected_eq_zero_iff (table : Table) (id : Nat) :
    deleteAffected table id = 0 ↔ ∀ r ∈ table, r.id ≠ id := by
  simp only [deleteAffected, List.length_eq_zero, List.filter_eq_nil_iff]
  constructor
  · intro h r hr
    have := h r hr
    simpa using this
  · intro h r hr
    simpa using h r hr

theorem runDelete_of_no_match (table : Table) (id : Nat)
    (h : ∀ r ∈ table, r.id ≠ id) : runDelete table id = table := by
  apply List.filter_eq_self.mpr
  intro r hr
  simpa using h r hr

theorem deleteAffected_runDelete (table : Table) (id : Nat) :
    deleteAffected (runDelete table id) id = 0 := by
  rw [deleteAffected_eq_zero_iff]
  intro r hr
  have := List.of_mem_filter hr
  simpa using this

/-- A closed form for `deleteEntity`: a zero affected-row count yields the
409 conflict error with an unchanged table (rolled back when the
transaction is owned); otherwise the rows with the id are removed and the
confirmation record is returned. -/
theorem deleteEntity_eq (table : Table) (now id : Nat) (hm : Bool) :
    deleteEntity table now id hm =
      if deleteAffected table id = 0 then
        ⟨table, if hm then TxState.pending else TxState.rolledBack,
          Except.error (deleteNotAffectedError id)⟩
      else
        ⟨runDelete table id, if hm then TxState.pending else TxState.committed,
          Except.ok (deleteSuccessResponse id now)⟩ := by
  have hself : deleteAffected table id = 0 → runDelete table id = table := fun h =>
    runDelete_of_no_match table id ((deleteAffected_eq_zero_iff table id).mp h)
  cases hm
  · by_cases h : deleteAffected table id = 0
    · simp [deleteEntity, deleteEntityWithManager, transaction, assertAffected, h, hself h]
    · simp [deleteEntity, deleteEntityWithManager, transaction, assertAffected, h]
  · by_cases h : deleteAffected table id = 0
    · simp [deleteEntity, deleteEntityWithManager, transaction, assertAffected, h, hself h]
    · simp [deleteEntity, deleteEntityWithManager, transaction, assertAffected, h]

theorem mem_insertByCreatedAtDesc (r a : Row) (l : List Row) :
    a ∈ insertByCreatedAtDesc r l ↔ a = r ∨ a ∈ l := by
  induction l with
  | nil => simp [insertByCreatedAtDesc]
  | cons x xs ih =>
    simp only [insertByCreatedAtDesc]
    split
    · simp [List.mem_cons]
    · simp only [List.mem_cons, ih]
      tauto

theorem length_insertByCreatedAtDesc (r : Row) (l : List Row) :
    (insertByCreatedAtDesc r l).length = l.length + 1 := by
  induction l with
  | nil => rfl
  | cons x xs ih =>
    simp only [insertByCreatedAtDesc]
    split
    · rfl
    · simp [ih]

theorem mem_sortByCreatedAtDesc (a : Row) (l : List Row) :
    a ∈ sortByCreatedAtDesc l ↔ a ∈ l := by
  induction l with
  | nil => simp [sortByCreatedAtDesc]
  | cons x xs ih =>
    show a ∈ insertByCreatedAtDesc x (sortByCreatedAtDesc xs) ↔ _
    rw [mem_insertByCreatedAtDesc]
    simp [List.mem_cons, ih]

theorem length_sortByCreatedAtDesc (l : List Row) :
    (sortByCreatedAtDesc l).length = l.length := by
  induction l with
  | nil => rfl
  | cons x xs ih =>
    show (insertByCreatedAtDesc x (sortByCreatedAtDesc xs)).length = _
    rw [length_insertByCreatedAtDesc, ih]
    rfl

theorem sorted_insertByCreatedAtDesc (r : Row) (l : List Row)
    (h : l.Pairwise (fun a b => b.createdAt ≤ a.createdAt)) :
    (insertByCreatedAtDesc r l).Pairwise (fun a b => b.createdAt ≤ a.createdAt) := by
  induction l with
  | nil => simp [insertByCreatedAtDesc]
  | cons x xs ih =>
    rcases List.pairwise_cons.mp h with ⟨hx, hxs⟩
    simp only [insertByCreatedAtDesc]
    split
    · rename_i hle
      refine List.pairwise_cons.mpr ⟨?_, h⟩
      intro b hb
      rcases List.mem_cons.mp hb with rfl | hb'
      · exact hle
      · exact le_trans (hx b hb') hle
    · rename_i hgt
      refine List.pairwise_cons.mpr ⟨?_, ih hxs⟩
      intro b hb
      rcases (mem_insertByCreatedAtDesc r b xs).mp hb with rfl | hb'
      · exact le_of_not_le hgt
      · exact hx b hb'

theorem sorted_sortByCreatedAtDesc (l : List Row) :
    (sortByCreatedAtDesc l).Pairwise (fun a b => b.createdAt ≤ a.createdAt) := by
  induction l with
  | nil => simp [sortByCreatedAtDesc]
  | cons x xs ih => exact sorted_insertByCreatedAtDesc x _ ih

theorem getField_map_set_self (attrs : Attrs) (k v : String)
    (h : hasField attrs k = true) :
    getField (attrs.map (fun p => if p.1 = k then (k, v) else p)) k = some v := by
  induction attrs with
  | nil => simp [hasField] at h
  | cons q qs ih =>
    by_cases hq : q.1 = k
    · simp [getField, hq]
    · have h' : hasField qs k = true := by
        simp only [hasField, Bool.or_eq_true, decide_eq_true_eq] at h
        rcases h with h | h
        · exact absurd h hq
        · exact h
      simp [getField, hq, ih h']

theorem getField_append_single (attrs : Attrs) (k v : String)
    (h : hasField attrs k = false) :
    getField (attrs ++ [(k, v)]) k = some v := by
  induction attrs with
  | nil => simp [getField]
  | cons q qs ih =>
    simp only [hasField, Bool.or_eq_false_iff, decide_eq_false_iff_not] at h
    simp [getField, h.1, ih h.2]

theorem getField_map_set_ne (attrs : Attrs) (k v k' : String) (hne : k' ≠ k) :
    getField (attrs.map (fun p => if p.1 = k then (k, v) else p)) k' =
      getField attrs k' := by
  induction attrs with
  | nil => rfl
  | cons q qs ih =>
    by_cases hq : q.1 = k
    · have hq' : q.1 ≠ k' := by
        rw [hq]
        exact fun hh => hne hh.symm
      simp [getField, hq, Ne.symm hne, hq', ih]
    · by_cases hq' : q.1 = k'
      · simp [getField, hq, hq', hne]
      · simp [getField, hq, hq', ih]

theorem getField_append_single_ne (attrs : Attrs) (k v k' : String)
    (hne : k' ≠ k) :
    getField (attrs ++ [(k, v)]) k' = getField attrs k' := by
  induction attrs with
  | nil => simp [getField, Ne.symm hne]
  | cons q qs ih =>
    by_cases hq' : q.1 = k' <;> simp [getField, hq', ih]

theorem getField_setField_self (attrs : Attrs) (k v : String) :
    getField (setField attrs k v) k = some v := by
  unfold setField
  split
  · exact getField_map_set_self attrs k v (by assumption)
  · rename_i h
    exact getField_append_single attrs k v (by simpa using h)

theorem getField_setField_ne (attrs : Attrs) (k v k' : String) (hne : k' ≠ k) :
    getField (setField attrs k v) k' = getField attrs k' := by
  unfold setField
  split
  · exact getField_map_set_ne attrs k v k' hne
  · exact getField_append_single_ne attrs k v k' hne

theorem getField_applyPartial_not_mem (data : Attrs) (attrs : Attrs) (k : String)
    (h : k ∉ data.map Prod.fst) :
    getField (applyPartial attrs data) k = getField attrs k := by
  revert h
  induction data generalizing attrs with
  | nil => intro h; rfl
  | cons p ps ih =>
    intro h
    simp only [List.map_cons, List.mem_cons, not_or] at h
    show getField (applyPartial (setField attrs p.1 p.2) ps) k = _
    rw [ih _ h.2, getField_setField_ne _ _ _ _ h.1]

theorem getField_applyPartial_mem (data : Attrs) (attrs : Attrs) (k v : String)
    (hnodup : (data.map Prod.fst).Nodup) (h : (k, v) ∈ data) :
    getField (applyPartial attrs data) k = some v := by
  revert hnodup h
  induction data generalizing attrs with
  | nil => intro _ h; simp at h
  | cons p ps ih =>
    intro hnodup h
    rw [List.map_cons] at hnodup
    have hnd := List.nodup_cons.mp hnodup
    rcases List.mem_cons.mp h with rfl | hmem
    · show getField (applyPartial (setField attrs k v) ps) k = some v
      have hk : k ∉ ps.map Prod.fst := hnd.1
      rw [getField_applyPartial_not_mem ps _ k hk, getField_setField_self]
    · exact ih (setField attrs p.1 p.2) hnd.2 hmem

theorem find?_map_pred (f : Row → Row) (p : Row → Bool) (l : List Row)
    (hp : ∀ r, p (f r) = p r) :
    (l.map f).find? p = (l.find? p).map f := by
  induction l with
  | nil => rfl
  | cons x xs ih =>
    by_cases hx : p x = true
    · rw [List.map_cons, List.find?_cons_of_pos _ (by rw [hp x]; exact hx),
        List.find?_cons_of_pos _ hx, Option.map_some']
    · rw [List.map_cons, List.find?_cons_of_neg _ (by rw [hp x]; simpa using hx),
        List.find?_cons_of_neg _ (by simpa using hx), ih]

theorem findOneByID_applyUpdate (table : Table) (id : Nat) (data : Attrs)
    (r0 : Row) (h : findOneByID table id true = some r0) (b : Bool) :
    findOneByID (applyUpdate table id data) id b =
      some { r0 with attrs := applyPartial r0.attrs data } := by
  have h' : table.find? (fun r => r.id == id && r.deletedAt.isNone) = some r0 := by
    rw [← findOneByID_eq_find? table id true]
    exact h
  have hp := List.find?_some h'
  simp only [Bool.and_eq_true, beq_iff_eq] at hp
  rw [findOneByID_eq_find?]
  unfold applyUpdate
  rw [find?_map_pred _ _ _ (fun r => by by_cases hr : r.id = id <;> simp [hr])]
  rw [h']
  simp [hp.1]

theorem updateAffected_pos (table : Table) (id : Nat) (r0 : Row)
    (h : findOneByID table id true = some r0) :
    updateAffected table id ≠ 0 := by
  rw [findOneByID_eq_find?] at h
  have hm := List.mem_of_find?_eq_some h
  have hp := List.find?_some h
  simp only [Bool.and_eq_true, beq_iff_eq] at hp
  intro h0
  rw [updateAffected, List.length_eq_zero, List.filter_eq_nil_iff] at h0
  exact h0 r0 hm (by simpa using hp.1)

theorem updateEntityWithManager_none (table : Table) (id : Nat) (data : Attrs)
    (h : findOneByID table id true = none) :
    updateEntityWithManager table id data =
      (table, Except.error (updateMissingEntityError id)) := by
  simp [updateEntityWithManager, h]

theorem updateEntityWithManager_ok (table : Table) (id : Nat) (data : Attrs)
    (r0 : Row) (h : findOneByID table id true = some r0) :
    updateEntityWithManager table id data =
      (applyUpdate table id data,
        Except.ok (some { r0 with attrs := applyPartial r0.attrs data })) := by
  have haff := updateAffected_pos table id r0 h
  simp only [updateEntityWithManager, h, assertAffected, if_neg haff]
  rw [findOneByID_applyUpdate table id data r0 h false]

/-! ## Claim theorems -/

/-- Claim C6: for every id and optional transaction context, `findOneByID`
performs an equality lookup on the primary identifier, excludes
soft-deleted rows, puts a pessimistic read lock in the query exactly when
a transaction context is supplied, and returns the entity or the absence
marker — for an absent or soft-deleted id it returns `none`, never
throwing. -/
theorem C6_findOneByID_contract (table : Table) (id : Nat) (hasManager : Bool) :
    ((findOneByIDQuery id hasManager).lock = some LockMode.pessimisticRead ↔
      hasManager = true) ∧
    (findOneByIDQuery id hasManager).withDeleted = false ∧
    findOneByID table id hasManager =
      table.find? (fun r => r.id == id && r.deletedAt.isNone) ∧
    (∀ r, findOneByID table id hasManager = some r →
      r ∈ table ∧ r.id = id ∧ r.deletedAt = none) ∧
    ((∀ r ∈ table, r.id = id → r.deletedAt ≠ none) →
      findOneByID table id hasManager = none) := by
  refine ⟨?_, ?_, findOneByID_eq_find? table id hasManager, ?_, ?_⟩
  · cases hasManager <;> simp [findOneByIDQuery]
  · cases hasManager <;> simp [findOneByIDQuery]
  · intro r hr
    rw [findOneByID_eq_find?] at hr
    have hp := List.find?_some hr
    have hm := List.mem_of_find?_eq_some hr
    simp only [Bool.and_eq_true, beq_iff_eq, Option.isNone_iff_eq_none] at hp
    exact ⟨hm, hp.1, hp.2⟩
  · intro h
    rw [findOneByID_eq_find?, List.find?_eq_none]
    intro r hr
    by_cases hid : r.id = id
    · simp [hid, Option.isNone_iff_eq_none, h r hr hid]
    · simp [hid]

/-- Witness for C6: a soft-deleted row is reported absent, and the lock is
put in the query when a manager is supplied. -/
theorem C6_findOneByID_contract_witness :
    (findOneByIDQuery 1 true).lock = some LockMode.pessimisticRead ∧
    findOneByID [⟨1, 5, some 3, []⟩] 1 true = none :=
  ⟨(C6_findOneByID_contract [⟨1, 5, some 3, []⟩] 1 true).1.mpr rfl,
   (C6_findOneByID_contract [⟨1, 5, some 3, []⟩] 1 true).2.2.2.2 (by decide)⟩

/-- Claim C7: `get(key)` returns the cached value when one is present;
otherwise it fetches the key from the validated store and throws an
`EnvVariablesError` naming the variable and current environment exactly
when the fetched value is undefined/null/empty; for any non-empty value
it stores the value in the cache and returns it, and a subsequent get of
that key is a pure cache read. -/
theorem C7_zodGet_contract (st : ZodState) (key : String) :
    (∀ v, st.cache.lookup key = some v → zodGet st key = (st, Except.ok v)) ∧
    (st.cache.lookup key = none →
      (((zodGet st key).2 = Except.error (mkEnvVariablesError key st.env)) ↔
        (st.store.lookup key = none ∨ st.store.lookup key = some "")) ∧
      ((∃ e, (zodGet st key).2 = Except.error e) → (zodGet st key).1 = st) ∧
      (∀ v, st.store.lookup key = some v → v ≠ "" →
        zodGet st key = ({ st with cache := (key, v) :: st.cache }, Except.ok v) ∧
        zodGet { st with cache := (key, v) :: st.cache } key =
          ({ st with cache := (key, v) :: st.cache }, Except.ok v))) := by
  constructor
  · intro v hv
    simp [zodGet, hv]
  · intro hc
    refine ⟨?_, ?_, ?_⟩
    · rcases hs : st.store.lookup key with _ | v
      · simp [zodGet, hc, hs]
      · by_cases hv : v = ""
        · subst hv
          simp [zodGet, hc, hs]
        · simp [zodGet, hc, hs, hv]
    · rintro ⟨e, he⟩
      rcases hs : st.store.lookup key with _ | v
      · simp [zodGet, hc, hs]
      · by_cases hv : v = ""
        · subst hv
          simp [zodGet, hc, hs]
        · simp [zodGet, hc, hs, hv] at he
    · intro v hs hv
      constructor
      · simp [zodGet, hc, hs, hv]
      · simp [zodGet, List.lookup]

/-- Witness for C7: a miss on an empty store value throws the typed error,
and a non-empty value is cached and then read back from the cache. -/
theorem C7_zodGet_contract_witness :
    ((zodGet ⟨"development", [], [("APP_PORT", "3000"), ("APP_PREFIX", "")]⟩ "APP_PREFIX").2 =
      Except.error (mkEnvVariablesError "APP_PREFIX" "development")) ∧
    zodGet ⟨"development", [], [("APP_PORT", "3000"), ("APP_PREFIX", "")]⟩ "APP_PORT" =
      (⟨"development", [("APP_PORT", "3000")], [("APP_PORT", "3000"), ("APP_PREFIX", "")]⟩,
        Except.ok "3000") :=
  ⟨((C7_zodGet_contract ⟨"development", [], [("APP_PORT", "3000"), ("APP_PREFIX", "")]⟩
      "APP_PREFIX").2 (by decide)).1.mpr (Or.inr (by decide)),
   (((C7_zodGet_contract ⟨"development", [], [("APP_PORT", "3000"), ("APP_PREFIX", "")]⟩
      "APP_PORT").2 (by decide)).2.2 "3000" (by decide) (by decide)).1⟩

/-- Counterexample to claim C8 as stated: the claim requires details to be
included in the emitted body only outside production, but the filter
consults no environment flag — catching a custom `DatabaseError` while
`isProduction` is set still emits the details verbatim. -/
theorem C8_counterexample :
    (dbFilterEmitted true
      (DbException.database "DatabaseError" "23505" "duplicate"
        (some "internal detail"))).details = some "internal detail" := rfl

/-- Claim C8 (amended): every emitted response has `success: false`; a
driver SQL error maps code `23505` to 409, `23503` and `23502` to 400 and
any other or missing code to 500, never carrying details; the custom
`TypeOrmError` and `DatabaseError` branches emit 500 and 400 respectively
and echo their details unconditionally — the emitted body is the same in
every environment, production included. -/
theorem C8_dbFilter_classification (e : DbException) (isP : Bool) :
    (dbFilterEmitted isP e).success = false ∧
    (∀ c, e = DbException.queryFailed c →
      ((c = some "23505" → (dbFilterEmitted isP e).status = 409) ∧
       (c = some "23503" ∨ c = some "23502" → (dbFilterEmitted isP e).status = 400) ∧
       (c ≠ some "23505" → c ≠ some "23503" → c ≠ some "23502" →
         (dbFilterEmitted isP e).status = 500) ∧
       (dbFilterEmitted isP e).details = none)) ∧
    (∀ n c m d, e = DbException.typeOrm n c m d →
      dbFilterEmitted isP e = ⟨500, false, n, m, some c, d⟩) ∧
    (∀ n c m d, e = DbException.database n c m d →
      dbFilterEmitted isP e = ⟨400, false, n, m, some c, d⟩) ∧
    dbFilterEmitted isP e = dbFilterEmitted (!isP) e := by
  refine ⟨?_, ?_, ?_, ?_, rfl⟩
  · cases e with
    | queryFailed c =>
      simp only [dbFilterEmitted, dbFilterCatch]
      split_ifs <;> rfl
    | typeOrm n c m d => rfl
    | database n c m d => rfl
  · rintro c rfl
    simp only [dbFilterEmitted, dbFilterCatch]
    refine ⟨?_, ?_, ?_, ?_⟩
    · rintro rfl; rfl
    · rintro (rfl | rfl) <;> simp
    · intro h1 h2 h3
      simp [h1, h2, h3]
    · split_ifs <;> rfl
  · rintro n c m d rfl; rfl
  · rintro n c m d rfl; rfl

/-- Witness for C8 (amended): concrete classifications for a unique
constraint violation, a foreign key violation, a missing driver code and
a custom database error. -/
theorem C8_dbFilter_classification_witness :
    (dbFilterEmitted true (DbException.queryFailed (some "23505"))).status = 409 ∧
    (dbFilterEmitted true (DbException.queryFailed (some "23503"))).status = 400 ∧
    (dbFilterEmitted false (DbException.queryFailed none)).status = 500 ∧
    dbFilterEmitted true (DbException.database "DatabaseError" "X" "m" none) =
      ⟨400, false, "DatabaseError", "m", some "X", none⟩ :=
  ⟨(((C8_dbFilter_classification (DbException.queryFailed (some "23505")) true).2.1
      (some "23505") rfl).1 rfl),
   (((C8_dbFilter_classification (DbException.queryFailed (some "23503")) true).2.1
      (some "23503") rfl).2.1 (Or.inl rfl)),
   (((C8_dbFilter_classification (DbException.queryFailed none) false).2.1
      none rfl).2.2.1 (by decide) (by decide) (by decide)),
   ((C8_dbFilter_classification (DbException.database "DatabaseError" "X" "m" none)
      true).2.2.2.1 "DatabaseError" "X" "m" none rfl)⟩

/-- Claim C10: the not-soft-deleted predicate merged by `findAll`
constrains a property named `deletedAt`; the `User` entity declares no
such property (its soft-delete column is `deleteAt`), so for every
pagination filter the built where clause references a property absent
from `User` and constrains `User`'s actual soft-delete column only if the
caller's own filter did. -/
theorem C10_findAll_soft_delete_key_mismatch (filter : WhereClause) :
    ("deletedAt", WhereVal.null) ∈ findAllWhere filter ∧
    "deletedAt" ∉ userEntityProperties ∧
    userSoftDeleteColumn ≠ "deletedAt" ∧
    (userSoftDeleteColumn ∈ (findAllWhere filter).map Prod.fst ↔
      userSoftDeleteColumn ∈ filter.map Prod.fst) := by
  refine ⟨?_, by decide, by decide, ?_⟩
  · simp [findAllWhere]
  · simp only [findAllWhere, userSoftDeleteColumn, List.map_append, List.mem_append,
      List.mem_map, List.mem_filter, List.map_cons, List.map_nil,
      List.mem_singleton]
    constructor
    · rintro (⟨p, ⟨hp, _⟩, hk⟩ | h)
      · exact ⟨p, hp, hk⟩
      · exact absurd h (by decide)
    · rintro ⟨p, hp, hk⟩
      exact Or.inl ⟨p, ⟨hp, by rw [hk]; decide⟩, hk⟩

/-- Witness for C10 at a concrete caller filter: the built where clause
binds `deletedAt` to null while leaving `User`'s `deleteAt` column
unmentioned. -/
theorem C10_findAll_soft_delete_key_mismatch_witness :
    ("deletedAt", WhereVal.null) ∈ findAllWhere [("status", WhereVal.str "active")] ∧
    (userSoftDeleteColumn ∈
        (findAllWhere [("status", WhereVal.str "active")]).map Prod.fst ↔
      userSoftDeleteColumn ∈ [("status", WhereVal.str "active")].map Prod.fst) :=
  ⟨(C10_findAll_soft_delete_key_mismatch [("status", WhereVal.str "active")]).1,
   (C10_findAll_soft_delete_key_mismatch [("status", WhereVal.str "active")]).2.2.2⟩

/-- Claim C2: every write operation invoked without a caller-supplied
transaction context runs in a newly opened owned transaction: when the
body succeeds its whole effect is committed, when it throws the
transaction is rolled back — the persistent table is exactly the one from
before the call — and the same error propagates to the caller; the
outcome is never left pending. -/
theorem C2_owned_transaction_atomicity (table : Table) (now : Nat) (id : Nat)
    (data : Attrs) :
    (∀ t2 r, createEntityWithManager table now data = (t2, Except.ok r) →
      createEntity table now data false = ⟨t2, TxState.committed, Except.ok r⟩) ∧
    (∀ e, (createEntityWithManager table now data).2 = Except.error e →
      createEntity table now data false = ⟨table, TxState.rolledBack, Except.error e⟩) ∧
    (∀ t2 r, updateEntityWithManager table id data = (t2, Except.ok r) →
      updateEntity table id data false = ⟨t2, TxState.committed, Except.ok r⟩) ∧
    (∀ e, (updateEntityWithManager table id data).2 = Except.error e →
      updateEntity table id data false = ⟨table, TxState.rolledBack, Except.error e⟩) ∧
    (∀ t2 r, deleteEntityWithManager table now id = (t2, Except.ok r) →
      deleteEntity table now id false = ⟨t2, TxState.committed, Except.ok r⟩) ∧
    (∀ e, (deleteEntityWithManager table now id).2 = Except.error e →
      deleteEntity table now id false = ⟨table, TxState.rolledBack, Except.error e⟩) ∧
    (createEntity table now data false).state ≠ TxState.pending ∧
    (updateEntity table id data false).state ≠ TxState.pending ∧
    (deleteEntity table now id false).state ≠ TxState.pending := by
  refine ⟨?_, ?_, ?_, ?_, ?_, ?_, ?_, ?_, ?_⟩
  · intro t2 r h
    rw [createEntity_no_manager]
    exact transaction_ok table t2 r _ h
  · intro e h
    rw [createEntity_no_manager]
    exact transaction_error table e _ h
  · intro t2 r h
    rw [updateEntity_no_manager]
    exact transaction_ok table t2 r _ h
  · intro e h
    rw [updateEntity_no_manager]
    exact transaction_error table e _ h
  · intro t2 r h
    rw [deleteEntity_no_manager]
    exact transaction_ok table t2 r _ h
  · intro e h
    rw [deleteEntity_no_manager]
    exact transaction_error table e _ h
  · rw [createEntity_no_manager]
    exact transaction_state_ne_pending table _
  · rw [updateEntity_no_manager]
    exact transaction_state_ne_pending table _
  · rw [deleteEntity_no_manager]
    exact transaction_state_ne_pending table _

/-- Witness for C2: a create commits its insert; an update of a missing id
and a delete on an empty table roll back, leave the table unchanged and
propagate their errors. -/
theorem C2_owned_transaction_atomicity_witness :
    createEntity [] 0 [("email", "a@b.com")] false =
      ⟨[⟨1, 0, none, [("email", "a@b.com")]⟩], TxState.committed,
        Except.ok ⟨1, 0, none, [("email", "a@b.com")]⟩⟩ ∧
    updateEntity [] 7 [("name", "x")] false =
      ⟨[], TxState.rolledBack, Except.error (updateMissingEntityError 7)⟩ ∧
    deleteEntity [] 0 7 false =
      ⟨[], TxState.rolledBack, Except.error (deleteNotAffectedError 7)⟩ :=
  ⟨(C2_owned_transaction_atomicity [] 0 7 [("email", "a@b.com")]).1
      [⟨1, 0, none, [("email", "a@b.com")]⟩] ⟨1, 0, none, [("email", "a@b.com")]⟩
      (by decide),
   (C2_owned_transaction_atomicity [] 0 7 [("name", "x")]).2.2.2.1
      (updateMissingEntityError 7) (by decide),
   (C2_owned_transaction_atomicity [] 0 7 []).2.2.2.2.2.1
      (deleteNotAffectedError 7) (by decide)⟩

/-- Claim C5: `deleteEntity` fails with a 409 conflict error exactly when
the reported affected-row count is zero, returns the confirmation record
`\x7bmessage, success: true, date\x7d` when at least one row is affected,
and in particular the first delete of an existing id succeeds while a
second delete of the same id fails with the conflict error. -/
theorem C5_deleteEntity_contract (table : Table) (now : Nat) (id : Nat)
    (hasManager : Bool) :
    ((∃ e, (deleteEntity table now id hasManager).result = Except.error e) ↔
      deleteAffected table id = 0) ∧
    (deleteAffected table id = 0 →
      (deleteEntity table now id hasManager).result =
        Except.error (deleteNotAffectedError id) ∧
      (deleteNotAffectedError id).status = 409) ∧
    (deleteAffected table id ≠ 0 →
      (deleteEntity table now id hasManager).result =
        Except.ok (deleteSuccessResponse id now) ∧
      (deleteSuccessResponse id now).success = true) ∧
    ((∃ r ∈ table, r.id = id) →
      (deleteEntity table now id hasManager).result =
        Except.ok (deleteSuccessResponse id now) ∧
      (∀ now2 hm2,
        (deleteEntity (deleteEntity table now id hasManager).table now2 id hm2).result =
          Except.error (deleteNotAffectedError id))) := by
  have hpos : (∃ r ∈ table, r.id = id) → deleteAffected table id ≠ 0 := by
    rintro ⟨r, hr, hid⟩ h0
    exact (deleteAffected_eq_zero_iff table id).mp h0 r hr hid
  refine ⟨?_, ?_, ?_, ?_⟩
  · rw [deleteEntity_eq]
    by_cases h : deleteAffected table id = 0 <;> simp [h]
  · intro h
    rw [deleteEntity_eq]
    simp [h, deleteNotAffectedError, statusConflict]
  · intro h
    rw [deleteEntity_eq]
    simp [h, deleteSuccessResponse]
  · intro hex
    have h := hpos hex
    constructor
    · rw [deleteEntity_eq]
      simp [h]
    · intro now2 hm2
      have htab : (deleteEntity table now id hasManager).table = runDelete table id := by
        rw [deleteEntity_eq]
        simp [h]
      rw [htab, deleteEntity_eq]
      simp [deleteAffected_runDelete]

/-- Witness for C5: the first delete of the only row succeeds with the
confirmation record; repeating it conflicts. -/
theorem C5_deleteEntity_contract_witness :
    (deleteEntity [⟨1, 0, none, []⟩] 0 1 false).result =
      Except.ok (deleteSuccessResponse 1 0) ∧
    (deleteEntity (deleteEntity [⟨1, 0, none, []⟩] 0 1 false).table 3 1 true).result =
      Except.error (deleteNotAffectedError 1) := by
  have h := (C5_deleteEntity_contract [⟨1, 0, none, []⟩] 0 1 false).2.2.2
    ⟨⟨1, 0, none, []⟩, by decide, rfl⟩
  exact ⟨h.1, h.2 3 true⟩

/-- Claim C3: for every pagination request (1-based page), `findAll`
echoes `page` and `limit`, returns as data the rows matching the caller
filter merged with the not-soft-deleted predicate, sorted by creation
timestamp descending with offset `(page - 1) * limit` and at most `limit`
rows taken, and as total the full matching count; the data page contains
no soft-deleted row, its length is at most `limit` and at most `total`. -/
theorem C3_findAll_contract (table : Table) (p : PaginationRequest)
    (_hp : 1 ≤ p.page) :
    (findAll table p).page = p.page ∧
    (findAll table p).limit = p.limit ∧
    (findAll table p).data =
      ((sortByCreatedAtDesc (table.filter
        (fun r => r.deletedAt.isNone && rowMatches r (findAllWhere p.filter)))).drop
          ((p.page - 1) * p.limit)).take p.limit ∧
    (findAll table p).total = (table.filter
      (fun r => r.deletedAt.isNone && rowMatches r (findAllWhere p.filter))).length ∧
    (findAll table p).data.length ≤ p.limit ∧
    (findAll table p).data.length ≤ (findAll table p).total ∧
    (∀ r ∈ (findAll table p).data, r ∈ table ∧ r.deletedAt = none ∧
      rowMatches r (findAllWhere p.filter) = true) ∧
    (findAll table p).data.Pairwise (fun a b => b.createdAt ≤ a.createdAt) := by
  have hdata : (findAll table p).data =
      ((sortByCreatedAtDesc (table.filter
        (fun r => r.deletedAt.isNone && rowMatches r (findAllWhere p.filter)))).drop
          ((p.page - 1) * p.limit)).take p.limit := rfl
  have htotal : (findAll table p).total = (table.filter
      (fun r => r.deletedAt.isNone && rowMatches r (findAllWhere p.filter))).length := rfl
  have hsub : (findAll table p).data.Sublist (sortByCreatedAtDesc (table.filter
      (fun r => r.deletedAt.isNone && rowMatches r (findAllWhere p.filter)))) := by
    rw [hdata]
    exact (List.take_sublist _ _).trans (List.drop_sublist _ _)
  refine ⟨rfl, rfl, hdata, htotal, ?_, ?_, ?_, ?_⟩
  · rw [hdata]
    exact le_trans (Nat.le_of_eq (List.length_take _ _)) (min_le_left _ _)
  · rw [htotal]
    have hlen := hsub.length_le
    rwa [length_sortByCreatedAtDesc] at hlen
  · intro r hr
    have hmem := hsub.mem hr
    rw [mem_sortByCreatedAtDesc] at hmem
    have h1 := List.mem_of_mem_filter hmem
    have h2 := List.of_mem_filter hmem
    simp only [Bool.and_eq_true, Option.isNone_iff_eq_none] at h2
    exact ⟨h1, h2.1, h2.2⟩
  · exact List.Pairwise.sublist hsub (sorted_sortByCreatedAtDesc _)

/-- Witness for C3 at a table holding one live and one soft-deleted row. -/
theorem C3_findAll_contract_witness :
    (findAll [⟨1, 10, none, []⟩, ⟨2, 20, some 5, []⟩] ⟨1, 10, []⟩).page = 1 ∧
    (findAll [⟨1, 10, none, []⟩, ⟨2, 20, some 5, []⟩] ⟨1, 10, []⟩).data.length ≤ 10 ∧
    (findAll [⟨1, 10, none, []⟩, ⟨2, 20, some 5, []⟩] ⟨1, 10, []⟩).data.length ≤
      (findAll [⟨1, 10, none, []⟩, ⟨2, 20, some 5, []⟩] ⟨1, 10, []⟩).total :=
  ⟨(C3_findAll_contract [⟨1, 10, none, []⟩, ⟨2, 20, some 5, []⟩] ⟨1, 10, []⟩
      (by decide)).1,
   (C3_findAll_contract [⟨1, 10, none, []⟩, ⟨2, 20, some 5, []⟩] ⟨1, 10, []⟩
      (by decide)).2.2.2.2.1,
   (C3_findAll_contract [⟨1, 10, none, []⟩, ⟨2, 20, some 5, []⟩] ⟨1, 10, []⟩
      (by decide)).2.2.2.2.2.1⟩

/-- Claim C1: `updateEntity` first confirms the entity exists under the
given context and fails with a 404 NotFound error when it is absent or
soft-deleted, leaving the table unchanged; `assertAffected` fails with the
404 error exactly when the reported affected-row count is zero; and on
success the entity is re-read by id and returned with the supplied fields
merged, every field not named in the partial retaining its prior value. -/
theorem C1_updateEntity_contract (table : Table) (id : Nat) (data : Attrs)
    (hasManager : Bool) :
    (findOneByID table id true = none →
      (updateEntity table id data hasManager).result =
        Except.error (updateMissingEntityError id) ∧
      (updateMissingEntityError id).status = 404 ∧
      (updateEntity table id data hasManager).table = table) ∧
    (∀ aff id2, (∃ e, assertAffected WriteKind.update aff id2 = Except.error e ∧
        e.status = 404) ↔ aff = 0) ∧
    (∀ r0, findOneByID table id true = some r0 → (data.map Prod.fst).Nodup →
      (updateEntity table id data hasManager).result =
        Except.ok (some { r0 with attrs := applyPartial r0.attrs data }) ∧
      (updateEntity table id data hasManager).table = applyUpdate table id data ∧
      (∀ k v, (k, v) ∈ data →
        getField (applyPartial r0.attrs data) k = some v) ∧
      (∀ k, k ∉ data.map Prod.fst →
        getField (applyPartial r0.attrs data) k = getField r0.attrs k)) := by
  refine ⟨?_, ?_, ?_⟩
  · intro h
    have hb := updateEntityWithManager_none table id data h
    cases hasManager <;>
      simp [updateEntity, hb, transaction, updateMissingEntityError, statusNotFound]
  · intro aff id2
    constructor
    · rintro ⟨e, he, _⟩
      by_contra h0
      simp [assertAffected, h0] at he
    · rintro rfl
      exact ⟨updateNotAffectedError id2, by simp [assertAffected], rfl⟩
  · intro r0 h hnodup
    have hb := updateEntityWithManager_ok table id data r0 h
    refine ⟨?_, ?_, ?_, ?_⟩
    · cases hasManager <;> simp [updateEntity, hb, transaction]
    · cases hasManager <;> simp [updateEntity, hb, transaction]
    · intro k v hkv
      exact getField_applyPartial_mem data r0.attrs k v hnodup hkv
    · intro k hk
      exact getField_applyPartial_not_mem data r0.attrs k hk

/-- Witness for C1: updating a missing id fails with the 404 error; on an
existing row the returned entity has the supplied field merged while the
unnamed field keeps its prior value. -/
theorem C1_updateEntity_contract_witness :
    (updateEntity [] 7 [] false).result =
      Except.error (updateMissingEntityError 7) ∧
    (updateEntity [⟨1, 0, none, [("email", "a"), ("name", "bob")]⟩] 1
      [("name", "carl")] false).result =
      Except.ok (some ⟨1, 0, none,
        applyPartial [("email", "a"), ("name", "bob")] [("name", "carl")]⟩) ∧
    getField (applyPartial [("email", "a"), ("name", "bob")] [("name", "carl")])
      "name" = some "carl" ∧
    getField (applyPartial [("email", "a"), ("name", "bob")] [("name", "carl")])
      "email" = getField [("email", "a"), ("name", "bob")] "email" := by
  have h0 := (C1_updateEntity_contract [] 7 [] false).1 (by decide)
  have h1 := (C1_updateEntity_contract
    [⟨1, 0, none, [("email", "a"), ("name", "bob")]⟩] 1 [("name", "carl")] false).2.2
    ⟨1, 0, none, [("email", "a"), ("name", "bob")]⟩ (by decide) (by decide)
  exact ⟨h0.1, h1.1, h1.2.2.1 "name" "carl" (by decide), h1.2.2.2 "email" (by decide)⟩

/-- A closed form for a successful `registerUser` call: no conflict, a
non-empty hash, the new row appended and returned. -/
theorem registerUser_ok (table : Table) (now : Nat) (hashFn : String → String)
    (c : CreateUserDto)
    (hvalid : isValidEmail c.email = true)
    (hfree : table.any (fun r => r.deletedAt.isNone &&
      getField r.attrs "email" ==
        some (boundParamText (EmailArg.valid c.email))) = false)
    (hhash : hashFn c.email ≠ "") :
    registerUser table now hashFn c =
      ⟨table ++ [⟨nextId table, now, none,
          [("email", c.email), ("name", c.name),
           ("password", c.password), ("avatar", c.avatar)]⟩],
        [c.email],
        Except.ok ⟨true, "Greeting " ++ c.name ++ " ",
          ⟨nextId table, now, none,
            [("email", c.email), ("name", c.name),
             ("password", c.password), ("avatar", c.avatar)]⟩⟩⟩ := by
  simp [registerUser, isThisEmailAlreadyInDb, emailSchemaAccepts, hvalid, hfree,
    hhash, createEntity, transaction, createEntityWithManager]

/-- Claim C4: in every successful `registerUser` call the value handed to
`protectPassword` is the caller's email — the only hash-strategy call is
on `customer.email` — while the persisted entity carries the caller's
plain-text password unchanged in its `password` column; the computed hash
appears in no persisted field, and indeed the hash value has no influence
on the outcome at all. -/
theorem C4_registerUser_hashes_email (table : Table) (now : Nat)
    (hashFn : String → String) (c : CreateUserDto)
    (hvalid : isValidEmail c.email = true)
    (hfree : table.any (fun r => r.deletedAt.isNone &&
      getField r.attrs "email" ==
        some (boundParamText (EmailArg.valid c.email))) = false)
    (hhash : hashFn c.email ≠ "") :
    (registerUser table now hashFn c).hashCalls = [c.email] ∧
    (∃ row : Row,
      (registerUser table now hashFn c).result =
        Except.ok ⟨true, "Greeting " ++ c.name ++ " ", row⟩ ∧
      row.attrs = [("email", c.email), ("name", c.name),
        ("password", c.password), ("avatar", c.avatar)] ∧
      getField row.attrs "password" = some c.password ∧
      (registerUser table now hashFn c).table = table ++ [row]) ∧
    (∀ g : String → String, g c.email ≠ "" →
      registerUser table now g c = registerUser table now hashFn c) := by
  rw [registerUser_ok table now hashFn c hvalid hfree hhash]
  refine ⟨rfl, ⟨⟨nextId table, now, none,
      [("email", c.email), ("name", c.name),
       ("password", c.password), ("avatar", c.avatar)]⟩, rfl, rfl, ?_, rfl⟩, ?_⟩
  · simp [getField]
  · intro g hg
    rw [registerUser_ok table now g c hvalid hfree hg]

/-- Witness for C4: registering a concrete user stores their plain-text
password while the hash strategy is called on the email. -/
theorem C4_registerUser_hashes_email_witness :
    (registerUser [] 0 (fun s => "h" ++ s) ⟨"a@b.com", "Bob", "pw", "av"⟩).hashCalls =
      ["a@b.com"] ∧
    (∃ row : Row,
      (registerUser [] 0 (fun s => "h" ++ s)
        ⟨"a@b.com", "Bob", "pw", "av"⟩).result =
        Except.ok ⟨true, "Greeting " ++ "Bob" ++ " ", row⟩ ∧
      row.attrs = [("email", "a@b.com"), ("name", "Bob"),
        ("password", "pw"), ("avatar", "av")] ∧
      getField row.attrs "password" = some "pw" ∧
      (registerUser [] 0 (fun s => "h" ++ s)
        ⟨"a@b.com", "Bob", "pw", "av"⟩).table = [] ++ [row]) := by
  have h := C4_registerUser_hashes_email [] 0 (fun s => "h" ++ s)
    ⟨"a@b.com", "Bob", "pw", "av"⟩ (by decide) (by decide) (by decide)
  exact ⟨h.1, h.2.1⟩

/-- Claim C9 at its failing input (the code contradicts the claim and its
own documentation): with a live user row whose `email` column is
`a@b.com` already stored, a second `registerUser` for `a@b.com` does not
fail with the duplicate error — the existence check compares the column
against the serialized wrapper object, which differs from every plain
email, so it reports no conflict; the `User` entity declares no unique
constraint on `email`, and the call succeeds, persisting a second row
carrying the same email. -/
theorem C9_duplicate_check_never_fires :
    isThisEmailAlreadyInDb
      [⟨1, 0, none, [("email", "a@b.com"), ("name", "Bob"),
        ("password", "pw"), ("avatar", "av")]⟩]
      (EmailArg.valid "a@b.com") = Except.ok false ∧
    boundParamText (EmailArg.valid "a@b.com") ≠ "a@b.com" ∧
    (registerUser
      [⟨1, 0, none, [("email", "a@b.com"), ("name", "Bob"),
        ("password", "pw"), ("avatar", "av")]⟩]
      1 (fun _ => "h") ⟨"a@b.com", "Carl", "pw2", "av2"⟩).result ≠
      Except.error emailExistsError ∧
    (registerUser
      [⟨1, 0, none, [("email", "a@b.com"), ("name", "Bob"),
        ("password", "pw"), ("avatar", "av")]⟩]
      1 (fun _ => "h") ⟨"a@b.com", "Carl", "pw2", "av2"⟩).result =
      Except.ok ⟨true, "Greeting " ++ "Carl" ++ " ",
        ⟨2, 1, none, [("email", "a@b.com"), ("name", "Carl"),
          ("password", "pw2"), ("avatar", "av2")]⟩⟩ ∧
    ((registerUser
      [⟨1, 0, none, [("email", "a@b.com"), ("name", "Bob"),
        ("password", "pw"), ("avatar", "av")]⟩]
      1 (fun _ => "h") ⟨"a@b.com", "Carl", "pw2", "av2"⟩).table.filter
        (fun r => getField r.attrs "email" == some "a@b.com")).length = 2 := by
  decide

end Shiftly
